import Mathlib

/-!
Shallow embedding of `src/lib/Connection.js` (dubtrack-ws-client): the
connection lifecycle state machine, its callback registry, reconnection
policy, URL builder and constructor, together with a small labelled
transition system describing how transport events, timers and user calls
drive the handlers.  JS strings that may be `null`/`undefined` are
`Option String`; JS truthiness of such a value is `jsTruthy` (empty
string, `null` and `undefined` are falsy).  Thrown JS exceptions are
surfaced as an `Option String` component of a handler's result, with the
mutations performed before the throw kept (as in JS).
-/

namespace Dubtrack

/-- The `states` table built in the constructor: the seven connection states. -/
inductive ConnState where
  | initialized
  | connecting
  | connected
  | disconnected
  | closing
  | closed
  | failed
deriving DecidableEq, Repr

/-- JS truthiness of a nullable string: `null`/`undefined` and `''` are falsy. -/
def jsTruthy : Option String → Bool
  | none => false
  | some s => !(s == "")

/-- JS `a || b` on nullable strings: `a` when truthy, otherwise `b`. -/
def jsOrS (a b : Option String) : Option String :=
  if jsTruthy a then a else b

/-- JS `a || b` on an optional number with a numeric default (`0` is falsy). -/
def jsOrN (a : Option Nat) (b : Nat) : Nat :=
  match a with
  | some n => if n = 0 then b else n
  | none => b

/-- A decoded application-level message envelope `{reqId?, action?, ...}`.
Fields absent from the wire object are `none`. -/
structure Envelope where
  reqId : Option String := none
  action : Option String := none
  clientId : Option String := none
  connectionId : Option String := none
  socketId : Option String := none
deriving DecidableEq, Repr

/-- Modelled from the spec: `Message.ACTION.CONNECTED`, the reserved
handshake action tag, lives in `lib/Message.js` which is not under `src/`;
the spec's handshake scenario uses the action string `"connected"`. -/
def actionConnected : String := "connected"

/-- The value stored in a registry entry's `cb` slot.  JS lets any value be
stored there; `_execCallback` only calls it when `_.isFunction` holds.
A function is identified by a numeric tag so that invocations can be
observed in the event trace; `sendCallback` in the source stores the
message object itself in this slot. -/
inductive CbVal where
  | fn (id : Nat)
  | obj (m : Envelope)
deriving DecidableEq, Repr

/-- One pending entry of `this._callbacks`: the stored `cb` value and its
armed timeout timer (`timerPending` is false once the timer has fired;
`clearTimeout` happens exactly when the entry is deleted). -/
structure CbEntry where
  cb : CbVal
  timeoutMs : Nat
  timerPending : Bool
deriving DecidableEq, Repr

/-- Listener/ready state of the one live engine.io socket handle.
`openOnce`/`errOnce` are the one-shot listeners attached in `connect()`;
`closeOn`/`errOn`/`msgOn` are the persistent listeners attached in
`onOpen`. -/
structure Socket where
  readyState : String
  openOnce : Bool
  errOnce : Bool
  closeOn : Bool
  errOn : Bool
  msgOn : Bool
deriving DecidableEq, Repr

/-- A fresh handle returned by `eio(url, options)`: about to open, with the
two one-shot listeners that `connect()` registers. -/
def freshSocket : Socket :=
  { readyState := "opening", openOnce := true, errOnce := true,
    closeOn := false, errOn := false, msgOn := false }

/-- How `options.authCallback` was supplied: absent/falsy, a function, or a
truthy non-function value (which passes the constructor's auth-keys check
but is never invoked). -/
inductive AuthCb where
  | absent
  | fnVal
  | otherTruthy
deriving DecidableEq, Repr

/-- The recognized constructor options (fields the state machine reads). -/
structure Options where
  secure : Bool := false
  clientId : Option String := none
  secret : Option String := none
  token : Option String := none
  authCallback : AuthCb := AuthCb.absent
  host : Option String := none
  retriesAmount : Option Nat := none
  autoReconnect : Option Bool := none
  noAutoConnect : Bool := false
deriving DecidableEq, Repr

/-- The mutable state of a `Connection` instance. -/
structure Conn where
  state : ConnState
  secure : Bool
  clientId : String
  connectionId : Option String
  secret : Option String
  token : Option String
  host : String
  url : String
  retriesAmount : Nat
  autoReconnect : Bool
  currentRetries : Nat
  reconnectTimeout : Bool
  callbacks : List (String × CbEntry)
  socket : Option Socket
  authPending : Bool
deriving DecidableEq, Repr

/-- Observable effects of a handler: `emit name` is `this.emit(name, ...)`,
`invoke id errored` is a call of a stored callback function `id` with a
truthy/falsy error argument. -/
inductive Ev where
  | emit (name : String)
  | invoke (id : Nat) (errored : Bool)
deriving DecidableEq, Repr

/-- Registry lookup, `this._callbacks[reqId]`. -/
def cbLookup (cbs : List (String × CbEntry)) (reqId : String) : Option CbEntry :=
  (cbs.find? (fun p => p.1 == reqId)).map (·.2)

/-- Registry deletion, `delete this._callbacks[reqId]`. -/
def cbErase (cbs : List (String × CbEntry)) (reqId : String) : List (String × CbEntry) :=
  cbs.filter (fun p => !(p.1 == reqId))

/-- Mark the timer of an entry as no longer pending (it has fired). -/
def cbTimerFired (cbs : List (String × CbEntry)) (reqId : String) :
    List (String × CbEntry) :=
  cbs.map (fun p => if p.1 == reqId then (p.1, { p.2 with timerPending := false }) else p)

/-- `_buildUrl()`: append `&secret=`, `&access_token=`, `&clientId=` to the
base URL for each truthy credential field. -/
def buildUrl (c : Conn) : String :=
  let u := c.url
  let u := if jsTruthy c.secret then u ++ "&secret=" ++ c.secret.getD "" else u
  let u := if jsTruthy c.token then u ++ "&access_token=" ++ c.token.getD "" else u
  let u := if !(c.clientId == "") then u ++ "&clientId=" ++ c.clientId else u
  u

/-- `hasAuth()`: `Boolean(this.token || this.secret)`. -/
def hasAuth (c : Conn) : Bool :=
  jsTruthy c.token || jsTruthy c.secret

/-- `isConnected()`. -/
def isConnected (c : Conn) : Bool :=
  c.state == ConnState.connected

/-- `fail(err)`: set state to `failed` and emit it. -/
def fail (c : Conn) : Conn × List Ev :=
  ({ c with state := ConnState.failed }, [Ev.emit "failed"])

/-- Drop every listener from a socket handle. -/
def clearL (s : Socket) : Socket :=
  { s with
    openOnce := false
    errOnce := false
    closeOn := false
    errOn := false
    msgOn := false }

/-- `clearSocketListeners()`: remove every listener from the current socket
(no-op when `this.socket` is null). -/
def clearSocketListeners (c : Conn) : Conn :=
  match c.socket with
  | none => c
  | some s => { c with socket := some (clearL s) }

/-- `_setupReconnect()`: cancel any pending timer, then schedule a new one
unless the retry ceiling is reached. -/
def setupReconnect (c : Conn) : Conn :=
  let c1 := { c with reconnectTimeout := false }
  if c1.retriesAmount ≤ c1.currentRetries then c1
  else { c1 with reconnectTimeout := true }

/-- `connect()` body after the early-return guard: fail without auth,
otherwise go to `connecting`, drop the old socket's listeners, close it,
and open a fresh socket with one-shot `open`/`error` listeners.  The third
component is a thrown JS error, `none` here. -/
def connectBody (c : Conn) : Conn × List Ev × Option String :=
  if !hasAuth c then
    let (c1, evs) := fail c
    (c1, evs, none)
  else
    let c1 := { c with state := ConnState.connecting }
    let c2 := clearSocketListeners c1
    ({ c2 with socket := some freshSocket }, [], none)

/-- `connect()`: no-op when already connected over an open socket; reading
`this.socket.readyState` with a null socket throws a `TypeError`. -/
def connect (c : Conn) : Conn × List Ev × Option String :=
  if c.state == ConnState.connected then
    match c.socket with
    | none => (c, [], some "TypeError")
    | some s => if s.readyState == "open" then (c, [], none) else connectBody c
  else connectBody c

/-- `host.indexOf('wss://') == 0`, computed on the character list. -/
def startsWithWss (h : String) : Bool :=
  "wss://".toList.isPrefixOf h.toList

/-- `host.replace('wss://', '')` under the guard that the host starts with
`wss://`: the first (and leading) occurrence is removed, i.e. the six
prefix characters are dropped. -/
def dropWss (h : String) : String :=
  String.mk (h.toList.drop 6)

/-- The constructor of `Connection` (`new Connection(client, options)`).
Returns `Except.error` when the no-auth-keys check throws; otherwise the
initial instance and the events emitted during construction.  The
asynchronous `authCallback` invocation is recorded as `authPending`; its
completion is a separate transition (`AuthRes`). -/
def construct (o : Options) : Except String (Conn × List Ev) :=
  if !jsTruthy o.secret && !jsTruthy o.token && (o.authCallback == AuthCb.absent) then
    Except.error "No auth keys passed"
  else
    let host0 := match o.host with
      | some h => if h == "" then "localhost:8081" else h
      | none => "localhost:8081"
    let secure0 := o.secure
    let secure1 := if startsWithWss host0 then true else secure0
    let host1 := if startsWithWss host0 then dropWss host0 else host0
    let pre := if secure1 then "wss://" else "ws://"
    let isFn := o.authCallback == AuthCb.fnVal
    let c0 : Conn :=
      { state := if isFn then ConnState.connecting else ConnState.initialized
        secure := secure1
        clientId := if jsTruthy o.clientId then o.clientId.getD "" else ""
        connectionId := none
        secret := if jsTruthy o.secret then o.secret else none
        token := if jsTruthy o.token then o.token else none
        host := host1
        url := pre ++ host1 ++ "?connect=1"
        retriesAmount := o.retriesAmount.getD 7
        autoReconnect := o.autoReconnect.getD true
        currentRetries := 0
        reconnectTimeout := false
        callbacks := []
        socket := none
        authPending := isFn }
    let noAuto := o.noAutoConnect || isFn
    if noAuto then Except.ok (c0, [])
    else Except.ok ((connect c0).1, (connect c0).2.1)

/-- `close()`: set state to `closing`, emit it, call `this.socket.close()`
(a `TypeError` when the socket handle is null — the throw skips
`clearSocketListeners`), then clear the socket listeners. -/
def close (c : Conn) : Conn × List Ev × Option String :=
  let c1 := { c with state := ConnState.closing }
  match c1.socket with
  | none => (c1, [Ev.emit "closing"], some "TypeError")
  | some s =>
      let c2 := { c1 with socket := some { s with readyState := "closing" } }
      (clearSocketListeners c2, [Ev.emit "closing"], none)

/-- `onClose(force)`: from `closing` go to `closed`; from any other state go
to `disconnected` and arm the reconnection policy. -/
def onClose (c : Conn) : Conn × List Ev :=
  if c.state == ConnState.closing then
    ({ c with state := ConnState.closed }, [Ev.emit "closed"])
  else
    let c1 := { c with state := ConnState.disconnected }
    (setupReconnect c1, [Ev.emit "disconnected"])

/-- `_reconnect()` (the body of the reconnection timer): give up when
auto-reconnect is off or the retry ceiling is reached; reset the counter
when already connected; otherwise, outside `connecting`/`connected`,
count one retry and call `connect()`. -/
def reconnect (c : Conn) : Conn × List Ev × Option String :=
  if !c.autoReconnect then (c, [], none)
  else if c.retriesAmount ≤ c.currentRetries then (c, [], none)
  else if isConnected c then ({ c with currentRetries := 0 }, [], none)
  else if c.state != ConnState.connecting && c.state != ConnState.connected then
    connect { c with currentRetries := c.currentRetries + 1 }
  else (c, [], none)

/-- `_addCallback(reqId, cb, timeout)`: throw on a pending duplicate,
otherwise store the entry with an armed timeout timer. -/
def addCallback (c : Conn) (reqId : String) (cb : CbVal) (timeout : Option Nat) :
    Except String Conn :=
  if (cbLookup c.callbacks reqId).isSome then
    Except.error ("Could not make add callback operation with reqId: " ++ reqId)
  else
    Except.ok { c with callbacks :=
      (reqId, { cb := cb, timeoutMs := jsOrN timeout 15000, timerPending := true })
        :: c.callbacks }

/-- `_execCallback(reqId, err, data)`: no-op on an unknown id; otherwise
cancel the timer, call the stored `cb` when it is a function, and delete
the entry. -/
def execCallback (c : Conn) (reqId : String) (errored : Bool) : Conn × List Ev :=
  match cbLookup c.callbacks reqId with
  | none => (c, [])
  | some e =>
      let evs := match e.cb with
        | CbVal.fn id => [Ev.invoke id errored]
        | CbVal.obj _ => []
      ({ c with callbacks := cbErase c.callbacks reqId }, evs)

/-- The property key actually used when a registry timeout timer fires: the
source arms `setTimeout(this._execCallback.bind(this, err, null), ...)`,
omitting `reqId`, so `_execCallback` receives the `Error` object in its
`reqId` parameter and the lookup coerces it to this string. -/
def timeoutErrKey (reqId : String) : String :=
  "Error: Operation timeout for callback: " ++ reqId

/-- A registry timeout timer firing for the entry `reqId`: mark the timer
fired, then run `_execCallback` with the error object in the id position
(the reqId-omitting bind of the source). -/
def cbTimerExpire (c : Conn) (reqId : String) : Conn × List Ev :=
  match cbLookup c.callbacks reqId with
  | some e =>
      if e.timerPending then
        let c1 := { c with callbacks := cbTimerFired c.callbacks reqId }
        execCallback c1 (timeoutErrKey reqId) false
      else (c, [])
  | none => (c, [])

/-- `onOpen()`: with a live socket, clear all listeners then attach the
persistent `close`/`error`/`message` handlers. -/
def onOpen (c : Conn) : Conn :=
  match c.socket with
  | none => c
  | some s =>
      { c with socket := some { (clearL s) with closeOn := true, errOn := true, msgOn := true } }

/-- `onError(err)` (persistent error listener): during `connecting` mark the
connection failed, otherwise surface a generic error event. -/
def onError (c : Conn) : Conn × List Ev :=
  if c.state == ConnState.connecting then fail c
  else (c, [Ev.emit "error"])

/-- The one-shot error listener registered in `connect()`: only a truthy
error of type `TransportError` makes it fail and arm reconnection. -/
def onConnectError (c : Conn) (errTruthy : Bool) (errType : Option String) :
    Conn × List Ev :=
  if errTruthy && (errType == some "TransportError") then
    let (c1, evs) := fail c
    (setupReconnect c1, evs)
  else (c, [])

/-- `onMessage(data)` on an already decoded envelope: complete a matching
pending call, then dispatch on `action` — the reserved handshake action
adopts identity fields, resets the retry counter, becomes `connected`;
anything else with a truthy action is re-emitted as a generic message. -/
def onMessage (c : Conn) (d : Envelope) : Conn × List Ev :=
  let step1 : Conn × List Ev :=
    if jsTruthy d.reqId && (cbLookup c.callbacks (d.reqId.getD "")).isSome then
      execCallback c (d.reqId.getD "") false
    else (c, [])
  let c1 := step1.1
  let evs1 := step1.2
  if !jsTruthy d.action then (c1, evs1)
  else if d.action == some actionConnected then
    let c2 := if jsTruthy d.clientId then { c1 with clientId := d.clientId.getD "" } else c1
    let c3 := if jsTruthy d.connectionId || jsTruthy d.socketId then
        { c2 with connectionId := jsOrS d.connectionId d.socketId }
      else c2
    let c4 := { c3 with currentRetries := 0, state := ConnState.connected }
    (c4, evs1 ++ [Ev.emit "connected"])
  else (c1, evs1 ++ [Ev.emit "message"])

/-- `randomReqId()` with the 24 random characters supplied as an oracle:
the random run suffixed by `this.connectionId || '----'`. -/
def randomReqId (c : Conn) (rand : String) : String :=
  rand ++ (match jsOrS c.connectionId (some "----") with
    | some s => s
    | none => "----")

/-- `sendCallback(message, cb, timeout)`: ignore non-function callbacks,
stamp a generated `reqId` onto the message, register it in the registry —
the source passes `message` itself where `_addCallback` expects the
callback — and send it (`this.socket.send` throws on a null socket;
a duplicate-id throw from `_addCallback` propagates). -/
def sendCallback (c : Conn) (cb : CbVal) (msg : Envelope) (timeout : Option Nat)
    (rand : String) : Conn × List Ev × Option String :=
  match cb with
  | CbVal.obj _ => (c, [], none)
  | CbVal.fn _ =>
      let t := jsOrN timeout 15000
      let rid := randomReqId c rand
      let msg2 := { msg with reqId := some rid }
      match addCallback c rid (CbVal.obj msg2) (some t) with
      | Except.error e => (c, [], some e)
      | Except.ok c2 =>
          match c2.socket with
          | none => (c2, [], some "TypeError")
          | some _ => (c2, [], none)

/-- Payload of a completed `authCallback`: a bare token string, an object
whose `token` field may be truthy, or any other value. -/
inductive AuthRes where
  | str (s : String)
  | objTok (t : Option String)
  | other
deriving DecidableEq, Repr

/-- The arrow completion function passed to `options.authCallback`:
fail on error, extract a token from a string or object payload, fail when
no truthy token resulted, otherwise call `connect()`.  Delivered at most
once (`authPending` is consumed). -/
def authResult (c : Conn) (err : Bool) (res : AuthRes) : Conn × List Ev :=
  if !c.authPending then (c, [])
  else
    let c0 := { c with authPending := false }
    if err then fail c0
    else
      let c1 := match res with
        | AuthRes.str s => { c0 with token := some s }
        | AuthRes.objTok t => if jsTruthy t then { c0 with token := t } else c0
        | AuthRes.other => c0
      if !jsTruthy c1.token then fail c1
      else
        let (c2, evs, _) := connect c1
        (c2, evs)

/-- The entry points through which the outside world (caller, transport,
timers, auth completion) drives a connection instance. -/
inductive Act where
  | userConnect
  | userClose
  | userSendCallback (cb : CbVal) (msg : Envelope) (timeout : Option Nat) (rand : String)
  | sockOpen
  | sockClose
  | sockError (errTruthy : Bool) (errType : Option String)
  | sockMessage (d : Envelope)
  | reconnectFire
  | cbTimerFire (reqId : String)
  | authComplete (err : Bool) (res : AuthRes)
deriving DecidableEq, Repr

/-- The transport's `open` event: the socket (when present) becomes open and
the one-shot `open` listener, when attached, is consumed and runs `onOpen`. -/
def stepSockOpen (c : Conn) : Conn :=
  match c.socket with
  | none => c
  | some s =>
      let s1 := { s with readyState := "open" }
      if s1.openOnce then
        onOpen { c with socket := some { s1 with openOnce := false } }
      else { c with socket := some s1 }

/-- The transport's `close` event: the socket (when present) becomes closed
and `onClose` runs when its persistent listener is attached. -/
def stepSockClose (c : Conn) : Conn :=
  match c.socket with
  | none => c
  | some s =>
      let c1 := { c with socket := some { s with readyState := "closed" } }
      if s.closeOn then (onClose c1).1 else c1

/-- The transport's `error` event: the one-shot listener from `connect()`
takes priority (it is never attached together with the persistent one). -/
def stepSockError (c : Conn) (errTruthy : Bool) (errType : Option String) : Conn :=
  match c.socket with
  | none => c
  | some s =>
      if s.errOnce then
        let c1 := { c with socket := some { s with errOnce := false } }
        (onConnectError c1 errTruthy errType).1
      else if s.errOn then (onError c).1
      else c

/-- The transport's `message` event: handled only while the persistent
message listener is attached. -/
def stepSockMessage (c : Conn) (d : Envelope) : Conn :=
  match c.socket with
  | none => c
  | some s => if s.msgOn then (onMessage c d).1 else c

/-- The reconnection timer firing: only a pending timer runs `_reconnect`. -/
def stepReconnectFire (c : Conn) : Conn :=
  if c.reconnectTimeout then (reconnect { c with reconnectTimeout := false }).1
  else c

/-- One transition of the connection state machine under an entry point. -/
def stepAct (a : Act) (c : Conn) : Conn :=
  match a with
  | Act.userConnect => (connect c).1
  | Act.userClose => (close c).1
  | Act.userSendCallback cb msg timeout rand => (sendCallback c cb msg timeout rand).1
  | Act.sockOpen => stepSockOpen c
  | Act.sockClose => stepSockClose c
  | Act.sockError t ty => stepSockError c t ty
  | Act.sockMessage d => stepSockMessage c d
  | Act.reconnectFire => stepReconnectFire c
  | Act.cbTimerFire reqId => (cbTimerExpire c reqId).1
  | Act.authComplete err res => (authResult c err res).1

/-- The states a connection instance can be in: a constructor result
followed by any sequence of entry-point transitions. -/
inductive Reachable : Conn → Prop where
  | init (o : Options) (c : Conn) (evs : List Ev) :
      construct o = Except.ok (c, evs) → Reachable c
  | step (a : Act) (c : Conn) : Reachable c → Reachable (stepAct a c)

/-- The persistent message listener is attached to a live socket. -/
def msgListenerOn (c : Conn) : Bool :=
  match c.socket with
  | none => false
  | some s => s.msgOn

/-- Every listener is detached (or there is no socket at all). -/
def noListeners (c : Conn) : Bool :=
  match c.socket with
  | none => true
  | some s => !s.openOnce && !s.errOnce && !s.closeOn && !s.errOn && !s.msgOn

/-- The key safety invariant behind the handshake claim: in the states
`closing` and `closed` the socket has no listeners attached, so no
transport event (in particular no message) reaches a handler. -/
def ListenerInv (c : Conn) : Prop :=
  c.state = ConnState.closing ∨ c.state = ConnState.closed → noListeners c = true

theorem listenerInv_of_state (c : Conn)
    (h1 : c.state ≠ ConnState.closing) (h2 : c.state ≠ ConnState.closed) :
    ListenerInv c := by
  intro h
  rcases h with h | h
  · exact absurd h h1
  · exact absurd h h2

theorem listenerInv_of_noListeners (c : Conn) (h : noListeners c = true) :
    ListenerInv c := fun _ => h

theorem listenerInv_congr (c c' : Conn) (hst : c'.state = c.state)
    (hso : c'.socket = c.socket) (h : ListenerInv c) : ListenerInv c' := by
  intro hcc
  unfold noListeners
  rw [hso]
  have hc : c.state = ConnState.closing ∨ c.state = ConnState.closed := by
    rw [hst] at hcc; exact hcc
  have := h hc
  unfold noListeners at this
  exact this

theorem noListeners_clearSocketListeners (c : Conn) :
    noListeners (clearSocketListeners c) = true := by
  rcases hs : c.socket with _ | s <;> simp [noListeners, clearSocketListeners, clearL, hs]

theorem state_clearSocketListeners (c : Conn) :
    (clearSocketListeners c).state = c.state := by
  rcases hs : c.socket with _ | s <;> simp [clearSocketListeners, hs]

theorem connectBody_fst_inv (c : Conn) : ListenerInv (connectBody c).1 := by
  unfold connectBody fail
  split
  · exact listenerInv_of_state _ (by simp) (by simp)
  · exact listenerInv_of_state _ (by simp [state_clearSocketListeners])
      (by simp [state_clearSocketListeners])

theorem connect_fst_inv (c : Conn) : ListenerInv (connect c).1 := by
  unfold connect
  split
  next hc =>
    have hcs : c.state = ConnState.connected := by simpa using hc
    split
    · exact listenerInv_of_state _ (by simp [hcs]) (by simp [hcs])
    · split
      · exact listenerInv_of_state _ (by simp [hcs]) (by simp [hcs])
      · exact connectBody_fst_inv c
  next => exact connectBody_fst_inv c

theorem state_setupReconnect (c : Conn) :
    (setupReconnect c).state = c.state := by
  unfold setupReconnect
  dsimp only
  split <;> simp

theorem socket_setupReconnect (c : Conn) :
    (setupReconnect c).socket = c.socket := by
  unfold setupReconnect
  dsimp only
  split <;> simp

theorem close_fst_inv (c : Conn) : ListenerInv (close c).1 := by
  unfold close
  dsimp only
  split
  next hs => exact listenerInv_of_noListeners _ (by simp [noListeners, hs])
  next s hs =>
    dsimp only
    exact listenerInv_of_noListeners _ (noListeners_clearSocketListeners _)

theorem sendCallback_fst_inv (c : Conn) (cb : CbVal) (msg : Envelope)
    (timeout : Option Nat) (rand : String) (h : ListenerInv c) :
    ListenerInv (sendCallback c cb msg timeout rand).1 := by
  unfold sendCallback addCallback
  rcases cb with id | m
  · dsimp only
    by_cases hdup : (cbLookup c.callbacks (randomReqId c rand)).isSome = true
    · rw [if_pos hdup]
      exact h
    · rw [if_neg hdup]
      dsimp only
      split <;> exact listenerInv_congr c _ (by simp) (by simp) h
  · exact h

theorem stepSockOpen_state (c : Conn) : (stepSockOpen c).state = c.state := by
  unfold stepSockOpen onOpen
  rcases hs : c.socket with _ | s
  · simp [hs]
  · simp only [hs]
    split <;> simp

theorem stepSockOpen_inv (c : Conn) (h : ListenerInv c) :
    ListenerInv (stepSockOpen c) := by
  intro hcc
  rw [stepSockOpen_state] at hcc
  have hnl := h hcc
  unfold stepSockOpen onOpen
  rcases hs : c.socket with _ | s
  · simp only [hs]
    exact hnl
  · simp only [noListeners, hs] at hnl
    simp only [Bool.and_eq_true, Bool.not_eq_true'] at hnl
    obtain ⟨⟨⟨⟨h1, h2⟩, h3⟩, h4⟩, h5⟩ := hnl
    simp [hs, h1, noListeners, h2, h3, h4, h5]

theorem stepSockClose_inv (c : Conn) (h : ListenerInv c) :
    ListenerInv (stepSockClose c) := by
  unfold stepSockClose
  rcases hs : c.socket with _ | s
  · simp only [hs]
    exact h
  · simp only [hs]
    by_cases hon : s.closeOn = true
    · rw [if_pos hon]
      unfold onClose
      dsimp only
      split
      next hcl =>
        exfalso
        have hcs : c.state = ConnState.closing := by simpa using hcl
        have hnl := h (Or.inl hcs)
        simp [noListeners, hs] at hnl
        rw [hon] at hnl
        simp at hnl
      next =>
        exact listenerInv_of_state _ (by simp [state_setupReconnect])
          (by simp [state_setupReconnect])
    · rw [if_neg hon]
      intro hcc
      have hnl := h (by simpa using hcc)
      simp only [noListeners, hs] at hnl
      simp only [Bool.and_eq_true, Bool.not_eq_true'] at hnl
      obtain ⟨⟨⟨⟨h1, h2⟩, h3⟩, h4⟩, h5⟩ := hnl
      simp [noListeners, h1, h2, h3, h4, h5]

theorem execCallback_fst_state (c : Conn) (r : String) (e : Bool) :
    (execCallback c r e).1.state = c.state := by
  unfold execCallback
  split <;> simp

theorem execCallback_fst_socket (c : Conn) (r : String) (e : Bool) :
    (execCallback c r e).1.socket = c.socket := by
  unfold execCallback
  split <;> simp

theorem onMessage_fst_state (c : Conn) (d : Envelope) :
    (onMessage c d).1.state = c.state ∨
      (onMessage c d).1.state = ConnState.connected := by
  unfold onMessage
  dsimp only
  split
  · left
    split <;> simp [execCallback_fst_state]
  · split
    · right
      simp
    · left
      split <;> simp [execCallback_fst_state]

theorem stepSockMessage_inv (c : Conn) (d : Envelope) (h : ListenerInv c) :
    ListenerInv (stepSockMessage c d) := by
  unfold stepSockMessage
  rcases hs : c.socket with _ | s
  · simp only [hs]
    exact h
  · simp only [hs]
    by_cases hm : s.msgOn = true
    · rw [if_pos hm]
      intro hcc
      rcases onMessage_fst_state c d with he | he
      · rw [he] at hcc
        have hnl := h hcc
        simp only [noListeners, hs] at hnl
        simp only [Bool.and_eq_true, Bool.not_eq_true'] at hnl
        rw [hm] at hnl
        simp at hnl
      · rw [he] at hcc
        rcases hcc with hcc | hcc <;> exact absurd hcc (by decide)
    · rw [if_neg hm]
      exact h

theorem stepSockError_inv (c : Conn) (et : Bool) (ty : Option String)
    (h : ListenerInv c) : ListenerInv (stepSockError c et ty) := by
  unfold stepSockError
  rcases hs : c.socket with _ | s
  · simp only [hs]
    exact h
  · simp only [hs]
    by_cases he1 : s.errOnce = true
    · rw [if_pos he1]
      unfold onConnectError fail setupReconnect
      dsimp only
      split
      · split <;> exact listenerInv_of_state _ (by simp) (by simp)
      · intro hcc
        have hnl := h (by simpa using hcc)
        simp only [noListeners, hs] at hnl
        simp only [Bool.and_eq_true, Bool.not_eq_true'] at hnl
        obtain ⟨⟨⟨⟨h1, h2⟩, h3⟩, h4⟩, h5⟩ := hnl
        simp [noListeners, h1, h2, h3, h4, h5]
    · rw [if_neg he1]
      by_cases he2 : s.errOn = true
      · rw [if_pos he2]
        unfold onError fail
        split
        · exact listenerInv_of_state _ (by simp) (by simp)
        · exact h
      · rw [if_neg he2]
        exact h

theorem stepReconnectFire_inv (c : Conn) (h : ListenerInv c) :
    ListenerInv (stepReconnectFire c) := by
  unfold stepReconnectFire
  by_cases ht : c.reconnectTimeout = true
  · rw [if_pos ht]
    unfold reconnect isConnected
    dsimp only
    split
    · exact listenerInv_congr c _ (by simp) (by simp) h
    · split
      · exact listenerInv_congr c _ (by simp) (by simp) h
      · split
        · exact listenerInv_congr c _ (by simp) (by simp) h
        · split
          · exact connect_fst_inv _
          · exact listenerInv_congr c _ (by simp) (by simp) h
  · rw [if_neg ht]
    exact h

theorem cbTimerExpire_fst_inv (c : Conn) (r : String) (h : ListenerInv c) :
    ListenerInv (cbTimerExpire c r).1 := by
  unfold cbTimerExpire
  split
  · split
    · refine listenerInv_congr c _ ?_ ?_ h
      · simp [execCallback_fst_state]
      · simp [execCallback_fst_socket]
    · exact h
  · exact h

theorem authResult_fst_inv (c : Conn) (err : Bool) (res : AuthRes)
    (h : ListenerInv c) : ListenerInv (authResult c err res).1 := by
  unfold authResult fail
  dsimp only
  split
  · exact h
  · split
    · exact listenerInv_of_state _ (by simp) (by simp)
    · split
      · exact listenerInv_of_state _ (by simp) (by simp)
      · exact connect_fst_inv _

theorem stepAct_inv (a : Act) (c : Conn) (h : ListenerInv c) :
    ListenerInv (stepAct a c) := by
  cases a with
  | userConnect => exact connect_fst_inv c
  | userClose => exact close_fst_inv c
  | userSendCallback cb msg timeout rand => exact sendCallback_fst_inv c cb msg timeout rand h
  | sockOpen => exact stepSockOpen_inv c h
  | sockClose => exact stepSockClose_inv c h
  | sockError et ty => exact stepSockError_inv c et ty h
  | sockMessage d => exact stepSockMessage_inv c d h
  | reconnectFire => exact stepReconnectFire_inv c h
  | cbTimerFire r => exact cbTimerExpire_fst_inv c r h
  | authComplete err res => exact authResult_fst_inv c err res h

theorem construct_inv (o : Options) (c : Conn) (evs : List Ev)
    (h : construct o = Except.ok (c, evs)) : ListenerInv c := by
  unfold construct at h
  split at h
  · simp at h
  · dsimp only at h
    split at h
    · injection h with h1
      injection h1 with h2 h3
      rw [← h2]
      refine listenerInv_of_state _ ?_ ?_ <;> split <;> simp
    · injection h with h1
      injection h1 with h2 h3
      rw [← h2]
      exact connect_fst_inv _

/-- Every reachable connection state satisfies the listener invariant. -/
theorem reachable_listenerInv (c : Conn) (h : Reachable c) : ListenerInv c := by
  induction h with
  | init o c0 evs hc => exact construct_inv o c0 evs hc
  | step a c0 _ ih => exact stepAct_inv a c0 ih

theorem msgListenerOn_of_noListeners (c : Conn) (h : noListeners c = true) :
    msgListenerOn c = false := by
  unfold noListeners at h
  unfold msgListenerOn
  rcases hs : c.socket with _ | s
  · rfl
  · rw [hs] at h
    simp only [Bool.and_eq_true, Bool.not_eq_true'] at h
    exact h.2

/-! Concrete sample states used by the witnesses below. -/

/-- A configuration with just a token. -/
def sampleOpts : Options := { token := some "abc" }

/-- The instance `new Connection(client, {token: "abc"})` produces: the
implicit initial `connect()` has run, a fresh socket is opening. -/
def sampleConn1 : Conn :=
  { state := ConnState.connecting
    secure := false
    clientId := ""
    connectionId := none
    secret := none
    token := some "abc"
    host := "localhost:8081"
    url := "ws://localhost:8081?connect=1"
    retriesAmount := 7
    autoReconnect := true
    currentRetries := 0
    reconnectTimeout := false
    callbacks := []
    socket := some freshSocket
    authPending := false }

theorem sampleConn1_reachable : Reachable sampleConn1 :=
  Reachable.init sampleOpts sampleConn1 [] (by rfl)

/-- The state after calling `close()` on the freshly connecting instance. -/
def closingConn : Conn := stepAct Act.userClose sampleConn1

theorem closingConn_reachable : Reachable closingConn :=
  Reachable.step Act.userClose sampleConn1 sampleConn1_reachable

/-- A connected instance whose retry budget is exhausted. -/
def exhaustedConn : Conn :=
  { sampleConn1 with state := ConnState.disconnected, currentRetries := 7 }

/-- An instance with one pending registered call `"r1"`. -/
def pendingConn : Conn :=
  { sampleConn1 with
    state := ConnState.connected
    callbacks := [("r1", { cb := CbVal.fn 0, timeoutMs := 1000, timerPending := true })] }

/-- An instance built with `noAutoConnect`, so no socket was ever opened. -/
def deferredConn : Conn := { sampleConn1 with state := ConnState.initialized, socket := none }

/-- The spec's handshake scenario envelope. -/
def handshakeEnv : Envelope :=
  { action := some "connected", clientId := some "c1", connectionId := some "k9" }

/-- `pendingConn` after its timeout timer for `"r1"` has fired: the entry is
still there, merely with its timer spent. -/
def timedOutConn : Conn :=
  { sampleConn1 with
    state := ConnState.connected
    callbacks := [("r1", { cb := CbVal.fn 0, timeoutMs := 1000, timerPending := false })] }

/-- An inbound event is an invocation of a stored callback function. -/
def evIsInvoke : Ev → Bool
  | Ev.invoke _ _ => true
  | Ev.emit _ => false

/-- C1: for every inbound envelope whose action is the reserved handshake
action, handling the message resets the retry counter to 0, adopts any
server-provided `clientId` and `connectionId` (or the legacy `socketId`
alternate), sets the state to `connected` and emits the connected event,
regardless of the prior state; and the handler cannot fire from the
`closing`/`closed` states, because in every reachable such state the
message listener is detached. -/
theorem C1_handshake_envelope :
    (∀ (c : Conn) (d : Envelope), d.action = some actionConnected →
      (onMessage c d).1.currentRetries = 0 ∧
      (onMessage c d).1.state = ConnState.connected ∧
      Ev.emit "connected" ∈ (onMessage c d).2 ∧
      (jsTruthy d.clientId = true → (onMessage c d).1.clientId = d.clientId.getD "") ∧
      ((jsTruthy d.connectionId || jsTruthy d.socketId) = true →
        (onMessage c d).1.connectionId = jsOrS d.connectionId d.socketId)) ∧
    (∀ c : Conn, Reachable c →
      c.state = ConnState.closing ∨ c.state = ConnState.closed →
      msgListenerOn c = false) := by
  constructor
  · intro c d h
    unfold onMessage
    dsimp only
    rw [h, if_neg (by decide), if_pos (by decide)]
    refine ⟨rfl, rfl, by simp, ?_, ?_⟩
    · intro ht
      split <;> simp [ht]
    · intro ht
      simp [ht]

  · intro c hr hst
    exact msgListenerOn_of_noListeners c (reachable_listenerInv c hr hst)

/-- C1 witness: the spec's scenario envelope handled while `connecting`,
and a reachable closing state with the message listener detached. -/
theorem C1_handshake_envelope_witness :
    (onMessage sampleConn1 handshakeEnv).1.currentRetries = 0 ∧
    (onMessage sampleConn1 handshakeEnv).1.state = ConnState.connected ∧
    Ev.emit "connected" ∈ (onMessage sampleConn1 handshakeEnv).2 ∧
    (onMessage sampleConn1 handshakeEnv).1.clientId = "c1" ∧
    (onMessage sampleConn1 handshakeEnv).1.connectionId = some "k9" ∧
    msgListenerOn closingConn = false :=
  ⟨(C1_handshake_envelope.1 sampleConn1 handshakeEnv rfl).1,
    (C1_handshake_envelope.1 sampleConn1 handshakeEnv rfl).2.1,
    (C1_handshake_envelope.1 sampleConn1 handshakeEnv rfl).2.2.1,
    (C1_handshake_envelope.1 sampleConn1 handshakeEnv rfl).2.2.2.1 rfl,
    (C1_handshake_envelope.1 sampleConn1 handshakeEnv rfl).2.2.2.2 rfl,
    C1_handshake_envelope.2 closingConn closingConn_reachable (Or.inl rfl)⟩

/-- C2: the code's timer fires `_execCallback` with the Error object bound
in the `reqId` position (the bind omits the real id), so expiry is a no-op:
the handler is not called, the entry is not removed and a late response
still completes the call — evaluated here at the failing input. -/
theorem C2_timeout_bind_bug :
    cbTimerExpire pendingConn "r1" = (timedOutConn, []) ∧
    (cbLookup (cbTimerExpire pendingConn "r1").1.callbacks "r1").isSome = true ∧
    (onMessage (cbTimerExpire pendingConn "r1").1 { reqId := some "r1" }).2 =
      [Ev.invoke 0 false] := by
  refine ⟨?_, ?_, ?_⟩ <;> rfl

/-- C3: once the retry counter has reached the configured ceiling, arming
cancels any pending timer without scheduling a new one, and a firing timer
leaves the connection untouched (in particular `connect()` is not run). -/
theorem C3_retry_ceiling_terminal :
    ∀ c : Conn, c.retriesAmount ≤ c.currentRetries →
      (setupReconnect c).reconnectTimeout = false ∧
      reconnect c = (c, [], none) := by
  intro c h
  refine ⟨?_, ?_⟩
  · unfold setupReconnect
    dsimp only
    rw [if_pos h]
  · unfold reconnect
    by_cases ha : (!c.autoReconnect) = true
    · rw [if_pos ha]
    · rw [if_neg ha, if_pos h]

theorem C3_retry_ceiling_terminal_witness :
    (setupReconnect exhaustedConn).reconnectTimeout = false ∧
    reconnect exhaustedConn = (exhaustedConn, [], none) :=
  C3_retry_ceiling_terminal exhaustedConn (by decide)

/-- C4: the transport close handler moves `closing` to `closed` (emitting
the terminal event, arming nothing), and every other state to
`disconnected` (emitting the event and invoking the reconnection policy's
arming step). -/
theorem C4_onClose_transitions :
    ∀ c : Conn,
      (c.state = ConnState.closing →
        onClose c = ({ c with state := ConnState.closed }, [Ev.emit "closed"])) ∧
      (c.state ≠ ConnState.closing →
        onClose c =
          (setupReconnect { c with state := ConnState.disconnected },
            [Ev.emit "disconnected"])) := by
  intro c
  constructor
  · intro h
    unfold onClose
    rw [if_pos (by simp [h])]
  · intro h
    unfold onClose
    rw [if_neg (by simp [h])]

theorem C4_onClose_transitions_witness :
    onClose closingConn =
      ({ closingConn with state := ConnState.closed }, [Ev.emit "closed"]) ∧
    onClose sampleConn1 =
      (setupReconnect { sampleConn1 with state := ConnState.disconnected },
        [Ev.emit "disconnected"]) :=
  ⟨(C4_onClose_transitions closingConn).1 rfl,
    (C4_onClose_transitions sampleConn1).2 (by decide)⟩

/-- C5 counterexample: the configuration `{secret: ""}` has `secret`
present, yet construction still throws the no-auth-keys error, refuting
"construction succeeds whenever at least one of the three is present". -/
theorem C5_counterexample_empty_secret :
    (({ secret := some "" } : Options).secret.isSome = true) ∧
    construct { secret := some "" } = Except.error "No auth keys passed" :=
  ⟨rfl, by rfl⟩

/-- C5 (amended): construction throws the no-auth-keys error exactly when
`secret`, `token` and `authCallback` are all absent or falsy (absent,
empty string, or no callback value); it succeeds whenever at least one of
the three is present with a truthy value. -/
theorem C5_no_auth_keys_iff :
    ∀ o : Options,
      construct o = Except.error "No auth keys passed" ↔
        (jsTruthy o.secret = false ∧ jsTruthy o.token = false ∧
          o.authCallback = AuthCb.absent) := by
  intro o
  unfold construct
  split
  next hc =>
    simp only [Bool.and_eq_true, Bool.not_eq_true'] at hc
    obtain ⟨⟨h1, h2⟩, h3⟩ := hc
    simp only [beq_iff_eq] at h3
    exact ⟨fun _ => ⟨h1, h2, h3⟩, fun _ => rfl⟩
  next hc =>
    constructor
    · intro hcontra
      dsimp only at hcontra
      split at hcontra <;> simp at hcontra
    · intro hfalse
      exfalso
      apply hc
      simp [Bool.and_eq_true, Bool.not_eq_true', beq_iff_eq,
        hfalse.1, hfalse.2.1, hfalse.2.2]

/-- C6: a second `_addCallback` under a reqId that still has a pending
entry throws the duplicate-request error (the failure produces no new
connection value, so the registry keeps the original entry untouched). -/
theorem C6_duplicate_request_throws :
    ∀ (c : Conn) (reqId : String) (cb : CbVal) (t : Option Nat),
      (cbLookup c.callbacks reqId).isSome = true →
      addCallback c reqId cb t =
        Except.error ("Could not make add callback operation with reqId: " ++ reqId) := by
  intro c r cb t h
  unfold addCallback
  rw [if_pos h]

theorem C6_duplicate_request_throws_witness :
    addCallback pendingConn "r1" (CbVal.fn 1) none =
      Except.error "Could not make add callback operation with reqId: r1" :=
  C6_duplicate_request_throws pendingConn "r1" (CbVal.fn 1) none (by rfl)

/-- C7: with `host="localhost:8081"`, `token="abc"` and default options,
the built connection URL is exactly
`ws://localhost:8081?connect=1&access_token=abc`. -/
theorem C7_default_url :
    (construct { host := some "localhost:8081", token := some "abc" }).map
        (fun p => buildUrl p.1) =
      Except.ok "ws://localhost:8081?connect=1&access_token=abc" := by rfl

/-- C10: `close()` on an instance whose socket handle is still null sets
`closing`, emits the closing event, then throws a `TypeError` on
`this.socket.close()`, so this call never reaches the `closed` state. -/
theorem C10_close_without_socket :
    ∀ c : Conn, c.socket = none →
      close c =
        ({ c with state := ConnState.closing }, [Ev.emit "closing"], some "TypeError") ∧
      (close c).1.state ≠ ConnState.closed := by
  intro c h
  constructor
  · unfold close
    dsimp only
    rw [h]
  · unfold close
    dsimp only
    rw [h]
    simp

theorem toList_append (a b : String) : (a ++ b).toList = a.toList ++ b.toList := rfl

theorem append_ne_empty (a b : String) (hb : b ≠ "") : a ++ b ≠ "" := by
  intro hc
  apply hb
  have h1 := congrArg String.toList hc
  rw [toList_append] at h1
  have h2 : a.toList ++ b.toList = ([] : List Char) := h1
  have h3 : b.toList = [] := (List.append_eq_nil.mp h2).2
  exact String.toList_inj.mp h3

theorem randomReqId_ne_empty (c : Conn) (rand : String) :
    randomReqId c rand ≠ "" := by
  unfold randomReqId jsOrS
  rcases hcid : c.connectionId with _ | s
  · exact append_ne_empty _ _ (by decide)
  · by_cases hst : jsTruthy (some s) = true
    · rw [if_pos hst]
      refine append_ne_empty _ _ ?_
      intro hse
      have hs : s = "" := by simpa using hse
      rw [hs] at hst
      exact absurd hst (by decide)
    · rw [if_neg hst]
      exact append_ne_empty _ _ (by decide)

theorem randomReqId_truthy (c : Conn) (rand : String) :
    jsTruthy (some (randomReqId c rand)) = true := by
  unfold jsTruthy
  simp [randomReqId_ne_empty c rand]

/-- C9: `sendCallback` passes the message object itself where `_addCallback`
expects the callback, so the stored pending handler is the (reqId-stamped)
message, not the supplied function; since `_execCallback` only calls the
stored value when it is a function, the supplied callback is never invoked
when a correlated response later completes the request. -/
theorem C9_sendCallback_stores_message :
    ∀ (c : Conn) (id : Nat) (msg : Envelope) (t : Option Nat) (rand : String)
      (d : Envelope),
      cbLookup c.callbacks (randomReqId c rand) = none →
      d.reqId = some (randomReqId c rand) →
      ((cbLookup (sendCallback c (CbVal.fn id) msg t rand).1.callbacks
          (randomReqId c rand)).map (fun e => e.cb) =
        some (CbVal.obj { msg with reqId := some (randomReqId c rand) })) ∧
      ((onMessage (sendCallback c (CbVal.fn id) msg t rand).1 d).2.filter evIsInvoke
        = []) := by
  intro c id msg t rand d hfree hd
  have hform : (sendCallback c (CbVal.fn id) msg t rand).1 =
      { c with callbacks :=
        (randomReqId c rand,
          { cb := CbVal.obj { msg with reqId := some (randomReqId c rand) }
            timeoutMs := jsOrN (some (jsOrN t 15000)) 15000
            timerPending := true }) :: c.callbacks } := by
    unfold sendCallback addCallback
    dsimp only
    rw [if_neg (by simp [hfree])]
    dsimp only
    split <;> rfl
  have hlook : cbLookup (sendCallback c (CbVal.fn id) msg t rand).1.callbacks
      (randomReqId c rand) =
      some { cb := CbVal.obj { msg with reqId := some (randomReqId c rand) }
             timeoutMs := jsOrN (some (jsOrN t 15000)) 15000
             timerPending := true } := by
    rw [hform]
    unfold cbLookup
    simp
  constructor
  · rw [hlook]
    rfl
  · unfold onMessage
    dsimp only
    rw [hd]
    have hget : (some (randomReqId c rand)).getD "" = randomReqId c rand := rfl
    rw [hget]
    have hcond : (jsTruthy (some (randomReqId c rand)) &&
        (cbLookup (sendCallback c (CbVal.fn id) msg t rand).1.callbacks
          (randomReqId c rand)).isSome) = true := by
      rw [Bool.and_eq_true]
      exact ⟨randomReqId_truthy c rand, by rw [hlook]; rfl⟩
    rw [if_pos hcond]
    have hexec : (execCallback (sendCallback c (CbVal.fn id) msg t rand).1
        (randomReqId c rand) false).2 = [] := by
      unfold execCallback
      rw [hlook]
    rw [hexec]
    split
    · rfl
    · split <;> simp [evIsInvoke]

theorem C9_sendCallback_stores_message_witness :
    ((cbLookup (sendCallback sampleConn1 (CbVal.fn 5) { action := some "chat" }
          none "r").1.callbacks
        (randomReqId sampleConn1 "r")).map (fun e => e.cb) =
      some (CbVal.obj { action := some "chat", reqId := some (randomReqId sampleConn1 "r") })) ∧
    ((onMessage (sendCallback sampleConn1 (CbVal.fn 5) { action := some "chat" }
          none "r").1
        { reqId := some (randomReqId sampleConn1 "r") }).2.filter evIsInvoke = []) :=
  C9_sendCallback_stores_message sampleConn1 5 { action := some "chat" } none "r"
    { reqId := some (randomReqId sampleConn1 "r") } rfl rfl

/-! Query-string parsing, for the URL round-trip claim. -/

/-- Everything after the first occurrence of `c` (empty if `c` is absent). -/
def afterFirst (c : Char) : List Char → List Char
  | [] => []
  | x :: xs => if x = c then xs else afterFirst c xs

/-- Split a character list on every occurrence of `c`. -/
def splitOnCharL (c : Char) : List Char → List (List Char)
  | [] => [[]]
  | x :: xs =>
      if x = c then [] :: splitOnCharL c xs
      else
        match splitOnCharL c xs with
        | [] => [[x]]
        | y :: ys => (x :: y) :: ys

/-- Modelled from the spec: "parsing the query parameters of the resulting
URL" — standard query parsing: the part after the first `?`, split on `&`,
each pair split at its first `=` into key and value. -/
def queryParams (url : String) : List (String × String) :=
  (splitOnCharL '&' (afterFirst '?' url.toList)).map
    (fun kv => (String.mk (kv.takeWhile (fun ch => !(ch == '='))),
                String.mk (afterFirst '=' kv)))

/-- Modelled from the spec: look up one query parameter of a URL by key. -/
def getParam (url : String) (k : String) : Option String :=
  ((queryParams url).find? (fun p => p.1 == k)).map (fun p => p.2)

theorem afterFirst_not_mem (c : Char) (xs l : List Char) (h : c ∉ xs) :
    afterFirst c (xs ++ l) = afterFirst c l := by
  induction xs with
  | nil => rfl
  | cons x xs ih =>
      have hx : ¬ x = c := fun hx => h (by simp [hx])
      simp only [List.cons_append, afterFirst]
      rw [if_neg hx]
      exact ih (fun hm => h (List.mem_cons_of_mem _ hm))

theorem splitOnCharL_not_mem (c : Char) (xs : List Char) (h : c ∉ xs) :
    splitOnCharL c xs = [xs] := by
  induction xs with
  | nil => rfl
  | cons x xs ih =>
      have hx : ¬ x = c := fun hx => h (by simp [hx])
      simp only [splitOnCharL]
      rw [if_neg hx, ih (fun hm => h (List.mem_cons_of_mem _ hm))]

theorem splitOnCharL_append (c : Char) (xs ys : List Char) (h : c ∉ xs) :
    splitOnCharL c (xs ++ c :: ys) = xs :: splitOnCharL c ys := by
  induction xs with
  | nil => simp [splitOnCharL]
  | cons x xs ih =>
      have hx : ¬ x = c := fun hx => h (by simp [hx])
      simp only [List.cons_append, splitOnCharL, List.append_eq]
      rw [if_neg hx, ih (fun hm => h (List.mem_cons_of_mem _ hm))]

theorem takeWhile_key (k v : List Char) (h : ('=' : Char) ∉ k) :
    (k ++ '=' :: v).takeWhile (fun ch => !(ch == '=')) = k := by
  induction k with
  | nil => simp [List.takeWhile]
  | cons x xs ih =>
      have hx : ¬ x = '=' := fun hx => h (by simp [hx])
      simp only [List.cons_append, List.takeWhile, List.append_eq]
      simp only [show (x == '=') = false by simpa using hx, Bool.not_false]
      rw [ih (fun hm => h (List.mem_cons_of_mem _ hm))]

theorem afterFirst_key (k v : List Char) (h : ('=' : Char) ∉ k) :
    afterFirst '=' (k ++ '=' :: v) = v := by
  rw [afterFirst_not_mem '=' k _ h]
  simp [afterFirst]

/-- One query segment per pair: `&k=v`, in the order appended. -/
def encodeQ : List (String × String) → List Char
  | [] => []
  | (k, v) :: rest => '&' :: (k.toList ++ '=' :: (v.toList ++ encodeQ rest))

theorem splitOnCharL_encodeQ (head : List Char) (ps : List (String × String))
    (hh : ('&' : Char) ∉ head)
    (hp : ∀ p ∈ ps, ('&' : Char) ∉ p.1.toList ∧ ('&' : Char) ∉ p.2.toList) :
    splitOnCharL '&' (head ++ encodeQ ps) =
      head :: ps.map (fun p => p.1.toList ++ '=' :: p.2.toList) := by
  induction ps generalizing head with
  | nil =>
      simp only [encodeQ, List.append_nil, List.map_nil]
      exact splitOnCharL_not_mem '&' head hh
  | cons p rest ih =>
      rcases p with ⟨k, v⟩
      simp only [encodeQ]
      rw [splitOnCharL_append '&' head _ hh]
      have hkv : ('&' : Char) ∉ k.toList ++ '=' :: v.toList := by
        have h1 := (hp (k, v) (List.mem_cons_self _ _)).1
        have h2 := (hp (k, v) (List.mem_cons_self _ _)).2
        intro hm
        rcases List.mem_append.mp hm with hm | hm
        · exact h1 hm
        · rcases List.mem_cons.mp hm with hm | hm
          · exact absurd hm (by decide)
          · exact h2 hm
      have hassoc : k.toList ++ '=' :: (v.toList ++ encodeQ rest) =
          (k.toList ++ '=' :: v.toList) ++ encodeQ rest := by simp
      rw [hassoc, ih _ hkv (fun q hq => hp q (List.mem_cons_of_mem _ hq))]
      simp

theorem map_kv_encode (ps : List (String × String))
    (hp : ∀ p ∈ ps, ('=' : Char) ∉ p.1.toList) :
    ps.map ((fun kv => (String.mk (kv.takeWhile (fun ch => !(ch == '='))),
        String.mk (afterFirst '=' kv))) ∘
      (fun p => p.1.toList ++ '=' :: p.2.toList)) = ps := by
  induction ps with
  | nil => rfl
  | cons p rest ih =>
      rcases p with ⟨k, v⟩
      have hk := hp (k, v) (List.mem_cons_self _ _)
      simp only [List.map_cons, Function.comp]
      rw [takeWhile_key _ _ hk, afterFirst_key _ _ hk]
      rw [ih (fun q hq => hp q (List.mem_cons_of_mem _ hq))]
      rfl

/-- Parsing a URL whose character list is the canonical host, `?`,
`connect=1` and an encoded parameter tail recovers the parameters. -/
theorem queryParams_canonical (u : String) (ps : List (String × String))
    (hu : u.toList =
      "ws://localhost:8081".toList ++ '?' :: ("connect=1".toList ++ encodeQ ps))
    (hp : ∀ p ∈ ps, ('&' : Char) ∉ p.1.toList ∧ ('=' : Char) ∉ p.1.toList ∧
      ('&' : Char) ∉ p.2.toList) :
    queryParams u = ("connect", "1") :: ps := by
  unfold queryParams
  rw [hu]
  rw [afterFirst_not_mem '?' _ _ (by decide)]
  rw [show afterFirst '?' ('?' :: ("connect=1".toList ++ encodeQ ps)) =
      "connect=1".toList ++ encodeQ ps by simp [afterFirst]]
  rw [splitOnCharL_encodeQ _ ps (by decide)
    (fun p hq => ⟨(hp p hq).1, (hp p hq).2.2⟩)]
  simp only [List.map_cons, List.map_map]
  rw [map_kv_encode ps (fun q hq => (hp q hq).2.1)]
  rfl

/-- The connection the round-trip claim quantifies over: the default
host/base URL, with the three credential fields chosen freely. -/
def mkC8 (s t : Option String) (cl : String) : Conn :=
  { state := ConnState.connecting
    secure := false
    clientId := cl
    connectionId := none
    secret := s
    token := t
    host := "localhost:8081"
    url := "ws://localhost:8081?connect=1"
    retriesAmount := 7
    autoReconnect := true
    currentRetries := 0
    reconnectTimeout := false
    callbacks := []
    socket := none
    authPending := false }

/-- The query pairs `_buildUrl` appends, in order, one per truthy field. -/
def psOf (s t : Option String) (cl : String) : List (String × String) :=
  (if jsTruthy s then [("secret", s.getD "")] else []) ++
  (if jsTruthy t then [("access_token", t.getD "")] else []) ++
  (if !(cl == "") then [("clientId", cl)] else [])

theorem truthy_getD (s : Option String) (h : jsTruthy s = true) :
    s = some (s.getD "") := by
  cases s with
  | none => exact absurd h (by decide)
  | some v => rfl

theorem buildUrl_toList (s t : Option String) (cl : String) :
    (buildUrl (mkC8 s t cl)).toList =
      "ws://localhost:8081".toList ++ '?' ::
        ("connect=1".toList ++ encodeQ (psOf s t cl)) := by
  unfold buildUrl mkC8 psOf
  dsimp only
  split <;> split <;> split <;>
    · simp only [encodeQ, toList_append, List.append_assoc, List.append_nil,
        List.nil_append, List.cons_append, List.singleton_append]
      rfl

theorem psOf_wf (s t : Option String) (cl : String)
    (h1 : ∀ v, s = some v → ('&' : Char) ∉ v.toList)
    (h2 : ∀ v, t = some v → ('&' : Char) ∉ v.toList)
    (h3 : ('&' : Char) ∉ cl.toList) :
    ∀ p ∈ psOf s t cl, ('&' : Char) ∉ p.1.toList ∧ ('=' : Char) ∉ p.1.toList ∧
      ('&' : Char) ∉ p.2.toList := by
  intro p hp
  unfold psOf at hp
  rcases List.mem_append.mp hp with hp | hp
  · rcases List.mem_append.mp hp with hp | hp
    · by_cases hs : jsTruthy s = true
      · rw [if_pos hs] at hp
        simp at hp
        subst hp
        refine ⟨?_, ?_, h1 _ (truthy_getD s hs)⟩ <;> (dsimp only; decide)
      · rw [if_neg hs] at hp
        simp at hp
    · by_cases ht : jsTruthy t = true
      · rw [if_pos ht] at hp
        simp at hp
        subst hp
        refine ⟨?_, ?_, h2 _ (truthy_getD t ht)⟩ <;> (dsimp only; decide)
      · rw [if_neg ht] at hp
        simp at hp
  · by_cases hcl : (!(cl == "")) = true
    · rw [if_pos hcl] at hp
      simp at hp
      subst hp
      refine ⟨?_, ?_, h3⟩ <;> (dsimp only; decide)
    · rw [if_neg hcl] at hp
      simp at hp

/-- C8 counterexample: with `secret = "x&access_token=y"` (set), `token`
unset and `clientId` unset, the built URL parses back with
`access_token = "y"` (never set) and `secret = "x"` (not the value set),
refuting the unconditional round trip. -/
theorem C8_counterexample_ampersand :
    (mkC8 (some "x&access_token=y") none "").token = none ∧
    (mkC8 (some "x&access_token=y") none "").secret = some "x&access_token=y" ∧
    getParam (buildUrl (mkC8 (some "x&access_token=y") none "")) "access_token" =
      some "y" ∧
    getParam (buildUrl (mkC8 (some "x&access_token=y") none "")) "secret" =
      some "x" := by
  refine ⟨rfl, rfl, ?_, ?_⟩ <;> rfl

/-- C8 (amended): for every combination of set/unset `secret`, `token` and
`clientId` whose set values contain no `&`, parsing the query parameters
of the built URL recovers exactly the truthy values that were set, and
recovers unset (or empty, hence never appended) fields as absent. -/
theorem C8_roundtrip_no_ampersand :
    ∀ (s t : Option String) (cl : String),
      (∀ v, s = some v → ('&' : Char) ∉ v.toList) →
      (∀ v, t = some v → ('&' : Char) ∉ v.toList) →
      ('&' : Char) ∉ cl.toList →
      getParam (buildUrl (mkC8 s t cl)) "secret" =
        (if jsTruthy s then s else none) ∧
      getParam (buildUrl (mkC8 s t cl)) "access_token" =
        (if jsTruthy t then t else none) ∧
      getParam (buildUrl (mkC8 s t cl)) "clientId" =
        (if cl == "" then none else some cl) := by
  intro s t cl h1 h2 h3
  have hq := queryParams_canonical (buildUrl (mkC8 s t cl)) (psOf s t cl)
    (buildUrl_toList s t cl) (psOf_wf s t cl h1 h2 h3)
  have key1 : getParam (buildUrl (mkC8 s t cl)) "secret" =
      (if jsTruthy s then some (s.getD "") else none) := by
    unfold getParam
    rw [hq]
    unfold psOf
    by_cases hs : jsTruthy s = true <;> by_cases ht : jsTruthy t = true <;>
      by_cases hcl : (cl == "") = true <;> simp [hs, ht, hcl, List.find?]
  have key2 : getParam (buildUrl (mkC8 s t cl)) "access_token" =
      (if jsTruthy t then some (t.getD "") else none) := by
    unfold getParam
    rw [hq]
    unfold psOf
    by_cases hs : jsTruthy s = true <;> by_cases ht : jsTruthy t = true <;>
      by_cases hcl : (cl == "") = true <;> simp [hs, ht, hcl, List.find?]
  have key3 : getParam (buildUrl (mkC8 s t cl)) "clientId" =
      (if cl == "" then none else some cl) := by
    unfold getParam
    rw [hq]
    unfold psOf
    by_cases hs : jsTruthy s = true <;> by_cases ht : jsTruthy t = true <;>
      by_cases hcl : (cl == "") = true <;> simp [hs, ht, hcl, List.find?]
  refine ⟨?_, ?_, key3⟩
  · rw [key1]
    by_cases hs : jsTruthy s = true
    · rw [if_pos hs, if_pos hs]
      exact (truthy_getD s hs).symm
    · rw [if_neg hs, if_neg hs]
  · rw [key2]
    by_cases ht : jsTruthy t = true
    · rw [if_pos ht, if_pos ht]
      exact (truthy_getD t ht).symm
    · rw [if_neg ht, if_neg ht]

theorem C8_roundtrip_no_ampersand_witness :
    getParam (buildUrl (mkC8 (some "s3cr3t") (some "tok") "c9")) "secret" =
      some "s3cr3t" ∧
    getParam (buildUrl (mkC8 (some "s3cr3t") (some "tok") "c9")) "access_token" =
      some "tok" ∧
    getParam (buildUrl (mkC8 (some "s3cr3t") (some "tok") "c9")) "clientId" =
      some "c9" :=
  C8_roundtrip_no_ampersand (some "s3cr3t") (some "tok") "c9"
    (fun v hv => by cases hv; decide)
    (fun v hv => by cases hv; decide)
    (by decide)

theorem C10_close_without_socket_witness :
    close deferredConn =
      ({ deferredConn with state := ConnState.closing }, [Ev.emit "closing"],
        some "TypeError") ∧
    (close deferredConn).1.state ≠ ConnState.closed :=
  C10_close_without_socket deferredConn rfl

end Dubtrack
